import Mathlib

/-!
Shallow embedding of the OpenVideoAnnotator application core
(src/src/app/App.tsx and the AnnotationPanel / VideoPlayer components),
with theorems settling the specification claims about the annotation
workflow, the collection operations, source loading / engine selection,
SRT→VTT subtitle conversion, and JSON export.

Times and durations (JavaScript numbers used only as opaque pass-through
values here) are modelled as rationals; the millisecond clock read by
`Date.now()` is modelled as a natural-number parameter `now`, and
`Date.now().toString()` as its decimal representation `toString now`.
-/

namespace OVA

/-- The JavaScript whitespace class `\s` (also the set stripped by
`String.prototype.trim`): space, `\t`, `\n`, `\r`, `\v`, `\f`, NBSP,
the Unicode space separators, line/paragraph separators, and BOM. -/
def isJsWhitespace (c : Char) : Bool :=
  c = ' ' || c = '\t' || c = '\n' || c = '\r' || c = '\x0b' || c = '\x0c' ||
  c = '\u00A0' || c = '\u1680' || ('\u2000' <= c && c <= '\u200A') ||
  c = '\u2028' || c = '\u2029' || c = '\u202F' || c = '\u205F' ||
  c = '\u3000' || c = '\uFEFF'

/-- JavaScript `String.prototype.trim()`: strip `\s` characters from both
ends of the string. -/
def jsTrim (s : String) : String :=
  ⟨((s.data.dropWhile isJsWhitespace).reverse.dropWhile isJsWhitespace).reverse⟩

/-- The two annotation categories (`'VLM' | 'LLM'` in App.tsx). -/
inductive AnnType
  | VLM
  | LLM
deriving DecidableEq, Repr

/-- The two playback engines (`'youtube' | 'direct'` in App.tsx):
the hosted YouTube iframe widget versus the native `<video>` element. -/
inductive VideoType
  | youtube
  | direct
deriving DecidableEq, Repr

/-- The `Annotation` record of AnnotationPanel.tsx: one user-authored
note bound to a moment of the video. -/
structure Annotation where
  id : String
  timestamp : ℚ
  type : AnnType
  question : String
  requirements : String
  feedbackDuration : ℚ
deriving DecidableEq, Repr

/-- ``Omit<Annotation, 'id'>``: the replacement record passed to
`handleUpdateAnnotation`, and also the shape of one exported record. -/
structure AnnotationFields where
  timestamp : ℚ
  type : AnnType
  question : String
  requirements : String
  feedbackDuration : ℚ
deriving DecidableEq, Repr

/-- The App.tsx component state relevant to the annotation workflow:
`useState` hooks `videoUrl`, `inputUrl`, `currentTime`, `isPaused`,
`isAnnotating`, `annotations`, `videoType`, `youtubeVideoId`,
`videoFileName`. -/
structure AppState where
  videoUrl : String
  inputUrl : String
  currentTime : ℚ
  isPaused : Bool
  isAnnotating : Bool
  annotations : List Annotation
  videoType : VideoType
  youtubeVideoId : String
  videoFileName : String
deriving DecidableEq, Repr

/-- The AnnotationPanel.tsx draft-entry state: `annotationType`,
`annotationQuestion`, `annotationRequirements`, `feedbackDuration`. -/
structure PanelState where
  annotationType : AnnType
  annotationQuestion : String
  annotationRequirements : String
  feedbackDuration : ℚ
deriving DecidableEq, Repr

/-- The AnnotationPanel.tsx `editForm` draft for an in-place edit
(note: it has no timestamp field). -/
structure EditForm where
  type : AnnType
  question : String
  requirements : String
  feedbackDuration : ℚ
deriving DecidableEq, Repr

/-! ## YouTube video-id extraction (App.tsx `extractYouTubeVideoId`) -/

/-- The three platform markers of the first pattern of
`extractYouTubeVideoId`:
`/(?:youtube\.com\/watch\?v=|youtu\.be\/|youtube\.com\/embed\/)([^&\s?]+)/`. -/
def markers : List (List Char) :=
  ["youtube.com/watch?v=".data, "youtu.be/".data, "youtube.com/embed/".data]

/-- A character the capture group `[^&\s?]+` accepts: anything but `&`,
`?` and JavaScript whitespace. -/
def isIdChar (c : Char) : Bool :=
  !(c = '&' || c = '?' || isJsWhitespace c)

/-- The maximal id run the capture group takes after a marker. -/
def idRun (l : List Char) : List Char :=
  l.takeWhile isIdChar

/-- Attempt the first pattern at one position: try each marker
alternative in order; on a marker match the capture must take at least
one character, otherwise this position fails. -/
def matchAt (l : List Char) : Option (List Char) :=
  (markers.filterMap fun m =>
    if m.isPrefixOf l then
      if idRun (l.drop m.length) = [] then none
      else some (idRun (l.drop m.length))
    else none).head?

/-- Scan the string left to right for the first position where the
first pattern matches, as JavaScript `String.prototype.match` does. -/
def findMarkerMatch : List Char → Option (List Char)
  | [] => none
  | c :: rest =>
    match matchAt (c :: rest) with
    | some r => some r
    | none => findMarkerMatch rest

/-- The second pattern of `extractYouTubeVideoId`:
`/^([a-zA-Z0-9_-]{11})$/`, a bare 11-character identifier. -/
def isBare11 (l : List Char) : Bool :=
  l.length = 11 && l.all fun c => c.isAlphanum || c = '_' || c = '-'

/-- App.tsx `extractYouTubeVideoId`: try the marker pattern first, then
the bare 11-character pattern; `null` becomes `none`. -/
def extractYouTubeVideoId (url : String) : Option String :=
  match findMarkerMatch url.data with
  | some r => some ⟨r⟩
  | none => if isBare11 url.data then some url else none

/-! ## Source loading (App.tsx `handleLoadVideo`, `handleFileUpload`) -/

/-- JavaScript `url.split('/').pop() || ''`. -/
def lastSlashSegment (url : String) : String :=
  (url.splitOn "/").getLastD ""

/-- App.tsx `handleLoadVideo`: when the trimmed `inputUrl` is non-empty,
select the engine from `extractYouTubeVideoId`, reset the annotation
collection to empty and force paused; otherwise do nothing. -/
def handleLoadVideo (s : AppState) : AppState :=
  if jsTrim s.inputUrl ≠ "" then
    match extractYouTubeVideoId s.inputUrl with
    | some yid =>
        { s with videoType := VideoType.youtube, youtubeVideoId := yid,
                 videoUrl := s.inputUrl, videoFileName := "",
                 annotations := [], isPaused := true }
    | none =>
        { s with videoType := VideoType.direct, videoUrl := s.inputUrl,
                 videoFileName := lastSlashSegment s.inputUrl,
                 annotations := [], isPaused := true }
  else s

/-- A selected local file: its name, and the object URL the browser
mints for it (`URL.createObjectURL(file)` is modelled as data). -/
structure UploadedFile where
  name : String
  objectUrl : String
deriving DecidableEq, Repr

/-- App.tsx `handleFileUpload`: with a file selected, switch to the
native engine on the file's object URL, clear `inputUrl`, reset the
annotation collection to empty and force paused; with no file, do
nothing. -/
def handleFileUpload (file? : Option UploadedFile) (s : AppState) : AppState :=
  match file? with
  | some f =>
      { s with videoType := VideoType.direct, videoUrl := f.objectUrl,
               videoFileName := f.name, inputUrl := "",
               annotations := [], isPaused := true }
  | none => s

/-! ## Subtitle conversion (App.tsx `convertSrtToVtt`) -/

/-- The global regex replacement
`srt.replace(/(\d{2}:\d{2}:\d{2}),(\d{3})/g, '$1.$2')`: scan left to
right; at a position where the timestamp pattern matches, keep the
matched characters but turn the comma into a period and resume after
the match, else copy one character and move on. -/
def srtReplace : List Char → List Char
  | a :: b :: c :: d :: e :: f :: g :: h :: i :: j :: k :: m :: rest =>
      if a.isDigit && b.isDigit && c = ':' && d.isDigit && e.isDigit && f = ':' &&
         g.isDigit && h.isDigit && i = ',' && j.isDigit && k.isDigit && m.isDigit then
        a :: b :: c :: d :: e :: f :: g :: h :: '.' :: j :: k :: m :: srtReplace rest
      else
        a :: srtReplace (b :: c :: d :: e :: f :: g :: h :: i :: j :: k :: m :: rest)
  | a :: rest => a :: srtReplace rest
  | [] => []

/-- App.tsx `convertSrtToVtt`: prefix the `WEBVTT` header (plus a blank
line) and apply the timestamp-delimiter substitution to the payload. -/
def convertSrtToVtt (srt : String) : String :=
  "WEBVTT\n\n" ++ ⟨srtReplace srt.data⟩

/-! ## Annotation session (App.tsx and AnnotationPanel.tsx) -/

/-- App.tsx `handleStartAnnotation`: enter the composing state and
force playback to pause. -/
def handleStartAnnotation (s : AppState) : AppState :=
  { s with isAnnotating := true, isPaused := true }

/-- App.tsx `handleDoneAnnotation`: append one new record whose id is
the millisecond clock rendered in decimal and whose timestamp is the
explicit timestamp when given, else the coordinator's current time;
leave the composing state and resume playback. -/
def handleDoneAnnotation (type : AnnType) (question : String)
    (requirements : String) (feedbackDuration : ℚ)
    (manualTimestamp : Option ℚ) (now : ℕ) (s : AppState) : AppState :=
  { s with
      annotations := s.annotations ++
        [{ id := toString now,
           timestamp := manualTimestamp.getD s.currentTime,
           type := type, question := question,
           requirements := requirements,
           feedbackDuration := feedbackDuration }],
      isAnnotating := false,
      isPaused := false }

/-- AnnotationPanel.tsx `handleDone`: when the drafted question trims
to something non-empty, commit it through `onDoneAnnotation` (wired to
App.tsx `handleDoneAnnotation`, the drafted fields and the current time
passed along) and clear the draft fields; otherwise do nothing. -/
def handleDone (p : PanelState) (now : ℕ) (s : AppState) :
    AppState × PanelState :=
  if jsTrim p.annotationQuestion ≠ "" then
    ( handleDoneAnnotation p.annotationType p.annotationQuestion
        p.annotationRequirements p.feedbackDuration (some s.currentTime) now s,
      { p with annotationQuestion := "", annotationRequirements := "",
               feedbackDuration := 6 } )
  else (s, p)

/-! ## Collection operations (App.tsx and AnnotationPanel.tsx) -/

/-- App.tsx `handleDeleteAnnotation`: keep exactly the records whose id
differs from the argument. -/
def handleDeleteAnnotation (id : String) (s : AppState) : AppState :=
  { s with annotations := s.annotations.filter fun ann => ann.id ≠ id }

/-- App.tsx `handleUpdateAnnotation`: map over the collection, turning
every record whose id matches into the replacement fields carrying the
matched id (`{ ...updatedAnnotation, id }`). -/
def handleUpdateAnnotation (id : String) (u : AnnotationFields)
    (s : AppState) : AppState :=
  { s with
      annotations := s.annotations.map fun ann =>
        if ann.id = id then
          { id := id, timestamp := u.timestamp, type := u.type,
            question := u.question, requirements := u.requirements,
            feedbackDuration := u.feedbackDuration }
        else ann }

/-- AnnotationPanel.tsx `handleSaveEdit`: when the edit form's question
trims to something non-empty, commit the edit through
`onUpdateAnnotation` (wired to App.tsx `handleUpdateAnnotation`),
passing the edited record's original timestamp together with the form's
fields; otherwise do nothing. -/
def handleSaveEdit (ann : Annotation) (form : EditForm)
    (s : AppState) : AppState :=
  if jsTrim form.question ≠ "" then
    handleUpdateAnnotation ann.id
      { timestamp := ann.timestamp, type := form.type,
        question := form.question, requirements := form.requirements,
        feedbackDuration := form.feedbackDuration } s
  else s

/-- The update operation as exposed to the user: AnnotationPanel.tsx's
`handleSaveEdit` validation guard around App.tsx's
`handleUpdateAnnotation`, with `u` the replacement record the panel
passes through. -/
def updateGuarded (id : String) (u : AnnotationFields)
    (s : AppState) : AppState :=
  if jsTrim u.question ≠ "" then handleUpdateAnnotation id u s else s

/-! ## Export (App.tsx `handleGenerateJSON`) -/

/-- The export document App.tsx `handleGenerateJSON` assembles: the
source reference, the record count, and the records stripped of their
ids (the `annotations.map(({ id, ...rest }) => rest)` projection). -/
structure ExportDoc where
  videoUrl : String
  totalAnnotations : ℕ
  annotations : List AnnotationFields
deriving DecidableEq, Repr

/-- The `({ id, ...rest }) => rest` projection of one record. -/
def stripId (ann : Annotation) : AnnotationFields :=
  { timestamp := ann.timestamp, type := ann.type,
    question := ann.question, requirements := ann.requirements,
    feedbackDuration := ann.feedbackDuration }

/-- App.tsx `handleGenerateJSON`: produce the export document (file
emission is the host's job); the component state is returned unchanged
alongside it, the handler touching no `useState` setter. -/
def handleGenerateJSON (s : AppState) : ExportDoc × AppState :=
  ( { videoUrl := s.videoUrl,
      totalAnnotations := s.annotations.length,
      annotations := s.annotations.map stripId },
    s )

/-! ## Theorems -/

/-- Claim C6: for every collection state, `handleGenerateJSON` produces a
document whose `totalAnnotations` count equals the live collection length
and whose record list has, in insertion order, exactly one entry per
annotation — the record stripped of its id (the `AnnotationFields` type
has no id field) — and it leaves the component state unchanged. -/
theorem c6_export_document (s : AppState) :
    (handleGenerateJSON s).1.totalAnnotations = s.annotations.length ∧
    (handleGenerateJSON s).1.annotations.length = s.annotations.length ∧
    (∀ i : ℕ, (handleGenerateJSON s).1.annotations.get? i =
      (s.annotations.get? i).map stripId) ∧
    (handleGenerateJSON s).2 = s := by
  refine ⟨rfl, ?_, fun i => ?_, rfl⟩
  · simp [handleGenerateJSON]
  · simp [handleGenerateJSON, List.get?_map]

/-- Claim C8: `handleDeleteAnnotation` leaves no record with the given
id, is a no-op (not an error) when no record has that id, and is
idempotent: deleting the same id twice equals deleting it once. -/
theorem c8_delete_idempotent (s : AppState) (id : String) :
    (∀ ann ∈ ( handleDeleteAnnotation id s).annotations, ann.id ≠ id) ∧
    ((∀ ann ∈ s.annotations, ann.id ≠ id) → handleDeleteAnnotation id s = s) ∧
    handleDeleteAnnotation id ( handleDeleteAnnotation id s) =
      handleDeleteAnnotation id s := by
  refine ⟨?_, ?_, ?_⟩
  · intro ann h
    have := List.of_mem_filter h
    simpa using this
  · intro h
    have h2 : s.annotations.filter (fun ann => decide (ann.id ≠ id)) =
        s.annotations :=
      List.filter_eq_self.mpr fun ann hm => by simpa using h ann hm
    simp only [ handleDeleteAnnotation, h2]
  · simp [ handleDeleteAnnotation, List.filter_filter]

/-- Claim C10: one `handleDeleteAnnotation` call removes every record
whose id equals the argument, not just the first: afterwards the count
of matching records is zero, the length has dropped by the full number
of matches, and every non-matching record survives. -/
theorem c10_delete_removes_all (s : AppState) (id : String) :
    (( handleDeleteAnnotation id s).annotations.countP
        fun ann => ann.id = id) = 0 ∧
    ( handleDeleteAnnotation id s).annotations.length =
      s.annotations.length -
        (s.annotations.countP fun ann => ann.id = id) ∧
    (∀ ann ∈ s.annotations, ann.id ≠ id →
      ann ∈ ( handleDeleteAnnotation id s).annotations) := by
  refine ⟨?_, ?_, ?_⟩
  · refine List.countP_eq_zero.mpr ?_
    intro ann h
    have := List.of_mem_filter h
    simpa using this
  · have hlen : (s.annotations.filter fun ann => ann.id ≠ id).length =
        s.annotations.countP fun ann => ann.id ≠ id :=
      (List.countP_eq_length_filter _ _).symm
    have hsplit := List.length_eq_countP_add_countP
      (fun ann => ann.id = id) s.annotations
    have hcongr : (s.annotations.countP fun ann =>
        decide ¬(decide (ann.id = id)) = true) =
        s.annotations.countP fun ann => ann.id ≠ id := by
      refine List.countP_congr ?_
      intro ann _
      by_cases h : ann.id = id <;> simp [h]
    simp only [ handleDeleteAnnotation]
    omega
  · intro ann hm hid
    exact List.mem_filter.mpr ⟨hm, by simpa using hid⟩

/-- Claim C1, counterexample: the generated id is `Date.now().toString()`,
so a commit is not guaranteed an id that is unique across the live
collection — committing (non-empty question `"q"`) at clock value 0 over
a collection already holding a record with id `"0"` yields two records
with id `"0"`. -/
theorem c1_counterexample :
    jsTrim "q" ≠ "" ∧
    ¬ (((handleDone ⟨AnnType.VLM, "q", "", 6⟩ 0
          ⟨"", "", 0, true, true, [⟨"0", 0, AnnType.VLM, "seen?", "", 6⟩],
           VideoType.direct, "", ""⟩).1.annotations.map
            fun ann => ann.id).Nodup) := by
  decide

/-- Claim C1 as amended: a commit of a composing session with a question
that is non-empty after trimming appends exactly one new record to the
end of the collection, with id the decimal rendering of the commit-time
clock; the length grows by 1, the session returns to idle and the paused
flag is cleared; and the new id is unique across the live collection
provided no existing record already carries that clock string as id. -/
theorem c1_commit_appends (s : AppState) (p : PanelState) (now : ℕ)
    (hq : jsTrim p.annotationQuestion ≠ "")
    (hfresh : ∀ ann ∈ s.annotations, ann.id ≠ toString now) :
    (handleDone p now s).1.annotations =
      s.annotations ++
        [{ id := toString now, timestamp := s.currentTime,
           type := p.annotationType, question := p.annotationQuestion,
           requirements := p.annotationRequirements,
           feedbackDuration := p.feedbackDuration }] ∧
    (handleDone p now s).1.annotations.length = s.annotations.length + 1 ∧
    (handleDone p now s).1.isAnnotating = false ∧
    (handleDone p now s).1.isPaused = false ∧
    ((handleDone p now s).1.annotations.countP
        fun ann => ann.id = toString now) = 1 := by
  have hD : handleDone p now s =
      ( handleDoneAnnotation p.annotationType p.annotationQuestion
          p.annotationRequirements p.feedbackDuration (some s.currentTime) now s,
        { p with annotationQuestion := "", annotationRequirements := "",
                 feedbackDuration := 6 } ) := by
    simp only [handleDone, if_pos hq]
  rw [hD]
  refine ⟨rfl, by simp [ handleDoneAnnotation], rfl, rfl, ?_⟩
  simp only [ handleDoneAnnotation]
  rw [List.countP_append]
  have h0 : (s.annotations.countP fun ann => decide (ann.id = toString now)) = 0 :=
    List.countP_eq_zero.mpr fun ann hm => by simpa using hfresh ann hm
  simp [h0]

/-- Witness for C1's amended theorem at a concrete input: the empty
collection, question `"q"`, clock 42. -/
theorem c1_commit_appends_witness :
    jsTrim "q" ≠ "" ∧
    (handleDone ⟨AnnType.VLM, "q", "", 6⟩ 42
        ⟨"u", "", 5, true, true, [], VideoType.direct, "", ""⟩).1.annotations.length
      = ([] : List Annotation).length + 1 ∧
    (handleDone ⟨AnnType.VLM, "q", "", 6⟩ 42
        ⟨"u", "", 5, true, true, [], VideoType.direct, "", ""⟩).1.isPaused = false := by
  have h := c1_commit_appends
    ⟨"u", "", 5, true, true, [], VideoType.direct, "", ""⟩
    ⟨AnnType.VLM, "q", "", 6⟩ 42 (by decide)
    (fun ann hm => absurd hm (List.not_mem_nil ann))
  exact ⟨by decide, h.2.1, h.2.2.2.1⟩

/-- Claim C3: a commit attempt of a composing session whose question is
empty or whitespace-only after trimming appends nothing, changes
neither the application state nor the draft, and leaves the session in
the composing state. -/
theorem c3_empty_commit_noop (s : AppState) (p : PanelState) (now : ℕ)
    (hq : jsTrim p.annotationQuestion = "")
    (hc : s.isAnnotating = true) :
    (handleDone p now s).1 = s ∧
    (handleDone p now s).2 = p ∧
    (handleDone p now s).1.annotations = s.annotations ∧
    (handleDone p now s).1.isAnnotating = true := by
  have hD : handleDone p now s = (s, p) := by
    simp only [handleDone, hq, ne_eq, not_true_eq_false, if_false]
  exact ⟨by rw [hD], by rw [hD], by rw [hD], by rw [hD]; exact hc⟩

/-- Witness for C3 at a concrete input: a whitespace-only question over
a composing session with one existing record. -/
theorem c3_empty_commit_noop_witness :
    jsTrim "  " = "" ∧
    (handleDone ⟨AnnType.LLM, "  ", "r", 6⟩ 7
        ⟨"u", "", 3, true, true, [⟨"1", 2, AnnType.VLM, "q", "", 6⟩],
         VideoType.direct, "", ""⟩).1.annotations =
      [⟨"1", 2, AnnType.VLM, "q", "", 6⟩] ∧
    (handleDone ⟨AnnType.LLM, "  ", "r", 6⟩ 7
        ⟨"u", "", 3, true, true, [⟨"1", 2, AnnType.VLM, "q", "", 6⟩],
         VideoType.direct, "", ""⟩).1.isAnnotating = true := by
  have h := c3_empty_commit_noop
    ⟨"u", "", 3, true, true, [⟨"1", 2, AnnType.VLM, "q", "", 6⟩],
     VideoType.direct, "", ""⟩
    ⟨AnnType.LLM, "  ", "r", 6⟩ 7 (by decide) rfl
  exact ⟨by decide, h.2.2.1, h.2.2.2⟩

/-- Claim C4: the exposed update operation (the panel's validation
guard around `handleUpdateAnnotation`) keeps the collection length
unchanged, is a silent no-op when the replacement's trimmed question is
empty or when no record carries the id, and otherwise rewrites exactly
the matching records to the replacement fields under the preserved id. -/
theorem c4_update_preserves_id (s : AppState) (id : String)
    (u : AnnotationFields) :
    (updateGuarded id u s).annotations.length = s.annotations.length ∧
    (jsTrim u.question = "" → updateGuarded id u s = s) ∧
    ((∀ ann ∈ s.annotations, ann.id ≠ id) → updateGuarded id u s = s) ∧
    (jsTrim u.question ≠ "" → ∀ i : ℕ,
      (updateGuarded id u s).annotations.get? i =
        (s.annotations.get? i).map fun ann =>
          if ann.id = id then
            { id := id, timestamp := u.timestamp, type := u.type,
              question := u.question, requirements := u.requirements,
              feedbackDuration := u.feedbackDuration }
          else ann) := by
  refine ⟨?_, ?_, ?_, ?_⟩
  · by_cases hq : jsTrim u.question = ""
    · simp [updateGuarded, hq]
    · simp [updateGuarded, hq, handleUpdateAnnotation]
  · intro hq
    simp [updateGuarded, hq]
  · intro h
    by_cases hq : jsTrim u.question = ""
    · simp [updateGuarded, hq]
    · have h2 : (s.annotations.map fun ann =>
          if ann.id = id then
            ({ id := id, timestamp := u.timestamp, type := u.type,
               question := u.question, requirements := u.requirements,
               feedbackDuration := u.feedbackDuration } : Annotation)
          else ann) = s.annotations := by
        rw [List.map_congr_left
          (g := fun ann : Annotation => ann) fun ann hm => by simp [h ann hm]]
        simp
      simp only [updateGuarded, hq, ne_eq, not_false_eq_true, if_true,
        handleUpdateAnnotation, h2]
  · intro hq i
    simp [updateGuarded, hq, handleUpdateAnnotation, List.get?_map]

/-- Claim C5: a saved edit (the panel's `handleSaveEdit`, whose edit
form has no timestamp field and which passes the edited record's own
timestamp through) preserves the edited record's original timestamp,
whatever the replacement fields are: afterwards every record carrying
the edited record's id has that record's pre-edit timestamp. -/
theorem c5_edit_preserves_timestamp (s : AppState) (ann : Annotation)
    (form : EditForm) (ha : ann ∈ s.annotations)
    (hq : jsTrim form.question ≠ "") :
    ∀ b ∈ (handleSaveEdit ann form s).annotations,
      b.id = ann.id → b.timestamp = ann.timestamp := by
  intro b hb hid
  have hS : handleSaveEdit ann form s =
      handleUpdateAnnotation ann.id
        { timestamp := ann.timestamp, type := form.type,
          question := form.question, requirements := form.requirements,
          feedbackDuration := form.feedbackDuration } s := by
    simp only [handleSaveEdit, if_pos hq]
  rw [hS] at hb
  simp only [ handleUpdateAnnotation, List.mem_map] at hb
  obtain ⟨a, _, rfl⟩ := hb
  by_cases h : a.id = ann.id
  · simp [h]
  · simp only [h, if_false]
    simp only [h, if_false] at hid

/-- Witness for C5 at a concrete input: editing the sole record,
changing every edit-form field. -/
theorem c5_edit_preserves_timestamp_witness :
    ((⟨"1", 9, AnnType.VLM, "q", "", 6⟩ : Annotation) ∈
      ([⟨"1", 9, AnnType.VLM, "q", "", 6⟩] : List Annotation)) ∧
    jsTrim "new" ≠ "" ∧
    ∀ b ∈ (handleSaveEdit ⟨"1", 9, AnnType.VLM, "q", "", 6⟩
        ⟨AnnType.LLM, "new", "r", 3⟩
        ⟨"u", "", 0, true, false, [⟨"1", 9, AnnType.VLM, "q", "", 6⟩],
         VideoType.direct, "", ""⟩).annotations,
      b.id = "1" → b.timestamp = 9 := by
  refine ⟨by decide, by decide, ?_⟩
  exact c5_edit_preserves_timestamp
    ⟨"u", "", 0, true, false, [⟨"1", 9, AnnType.VLM, "q", "", 6⟩],
     VideoType.direct, "", ""⟩
    ⟨"1", 9, AnnType.VLM, "q", "", 6⟩ ⟨AnnType.LLM, "new", "r", 3⟩
    (by decide) (by decide)

/-- The payload substitution of `convertSrtToVtt` relates input and
output pointwise: every position is either copied verbatim or holds a
comma turned into a period (so lengths agree and nothing else changes). -/
theorem srtReplace_spec (l : List Char) :
    List.Forall₂ (fun x y => y = x ∨ (x = ',' ∧ y = '.')) l (srtReplace l) := by
  induction l using srtReplace.induct with
  | case1 a b c d e f g h i j k m rest hpat ih =>
      have hi : i = ',' := by
        simp only [Bool.and_eq_true, decide_eq_true_eq] at hpat
        exact hpat.1.1.1.2
      subst hi
      rw [srtReplace, if_pos hpat]
      refine List.Forall₂.cons (Or.inl rfl) ?_
      refine List.Forall₂.cons (Or.inl rfl) ?_
      refine List.Forall₂.cons (Or.inl rfl) ?_
      refine List.Forall₂.cons (Or.inl rfl) ?_
      refine List.Forall₂.cons (Or.inl rfl) ?_
      refine List.Forall₂.cons (Or.inl rfl) ?_
      refine List.Forall₂.cons (Or.inl rfl) ?_
      refine List.Forall₂.cons (Or.inl rfl) ?_
      refine List.Forall₂.cons (Or.inr ⟨rfl, rfl⟩) ?_
      refine List.Forall₂.cons (Or.inl rfl) ?_
      refine List.Forall₂.cons (Or.inl rfl) ?_
      exact List.Forall₂.cons (Or.inl rfl) ih
  | case2 a b c d e f g h i j k m rest hpat ih =>
      rw [srtReplace, if_neg hpat]
      exact List.Forall₂.cons (Or.inl rfl) ih
  | case3 a rest hshape ih =>
      have : srtReplace (a :: rest) = a :: srtReplace rest := by
        match rest, hshape with
        | b :: c :: d :: e :: f :: g :: h :: i :: j :: k :: m :: rest', hs =>
            exact absurd rfl (hs b c d e f g h i j k m rest')
        | [], _ => rfl
        | [b], _ => rfl
        | [b, c], _ => rfl
        | [b, c, d], _ => rfl
        | [b, c, d, e], _ => rfl
        | [b, c, d, e, f], _ => rfl
        | [b, c, d, e, f, g], _ => rfl
        | [b, c, d, e, f, g, h], _ => rfl
        | [b, c, d, e, f, g, h, i], _ => rfl
        | [b, c, d, e, f, g, h, i, j], _ => rfl
        | [b, c, d, e, f, g, h, i, j, k], _ => rfl
      rw [this]
      exact List.Forall₂.cons (Or.inl rfl) ih
  | case4 => exact List.Forall₂.nil

/-- Claim C7: `convertSrtToVtt` prefixes the `WEBVTT` header and a blank
line and rewrites only the timestamp delimiter (comma → period): the
spec's example converts exactly as stated, the output is always the
header followed by the substituted payload, and the substitution changes
a position only from a comma to a period. -/
theorem c7_srt_to_vtt :
    convertSrtToVtt "1\n00:00:01,000 --> 00:00:02,500\nHello\n" =
      "WEBVTT\n\n1\n00:00:01.000 --> 00:00:02.500\nHello\n" ∧
    (∀ srt : String, (convertSrtToVtt srt).data =
      "WEBVTT\n\n".data ++ srtReplace srt.data) ∧
    ∀ l : List Char, List.Forall₂
      (fun x y => y = x ∨ (x = ',' ∧ y = '.')) l (srtReplace l) := by
  refine ⟨by decide, fun srt => rfl, srtReplace_spec⟩

/-- Claim C9: loading a new source — via `handleLoadVideo` with
non-empty trimmed input, or via `handleFileUpload` with a selected
file — resets the annotation collection to empty and forces
paused=true, discarding every previously authored record. -/
theorem c9_load_discards_collection (s : AppState) :
    (jsTrim s.inputUrl ≠ "" →
      (handleLoadVideo s).annotations = [] ∧
      (handleLoadVideo s).isPaused = true) ∧
    ∀ f : UploadedFile,
      (handleFileUpload (some f) s).annotations = [] ∧
      (handleFileUpload (some f) s).isPaused = true := by
  refine ⟨fun h => ?_, fun f => ⟨rfl, rfl⟩⟩
  rw [handleLoadVideo, if_pos h]
  cases extractYouTubeVideoId s.inputUrl <;> exact ⟨rfl, rfl⟩

/-- One scan position matches the marker pattern exactly when some
marker is a prefix there and the capture takes at least one character. -/
theorem matchAt_isSome_iff (l : List Char) :
    (matchAt l).isSome = true ↔
      ∃ m ∈ markers, m.isPrefixOf l = true ∧ idRun (l.drop m.length) ≠ [] := by
  rw [matchAt, List.head?_isSome, Ne, List.filterMap_eq_nil_iff]
  push_neg
  constructor
  · rintro ⟨m, hm, hne⟩
    refine ⟨m, hm, ?_⟩
    by_cases hp : m.isPrefixOf l = true
    · by_cases hr : idRun (l.drop m.length) = []
      · exact absurd (by simp [hp, hr]) hne
      · exact ⟨hp, hr⟩
    · exact absurd (by simp [hp]) hne
  · rintro ⟨m, hm, hp, hr⟩
    exact ⟨m, hm, by simp [hp, hr]⟩

/-- The whole-string scan succeeds exactly when some position matches
the marker pattern. -/
theorem findMarkerMatch_isSome_iff (l : List Char) :
    (findMarkerMatch l).isSome = true ↔
      ∃ i, (matchAt (l.drop i)).isSome = true := by
  induction l with
  | nil =>
      have h0 : matchAt [] = none := rfl
      simp [findMarkerMatch, h0]
  | cons c rest ih =>
      rw [findMarkerMatch]
      cases hm : matchAt (c :: rest) with
      | some r =>
          simp only [Option.isSome_some, true_iff]
          exact ⟨0, by rw [List.drop_zero, hm]; rfl⟩
      | none =>
          rw [ih]
          constructor
          · rintro ⟨i, hi⟩
            exact ⟨i + 1, by simpa using hi⟩
          · rintro ⟨i, hi⟩
            cases i with
            | zero =>
                rw [List.drop_zero, hm] at hi
                exact absurd hi (by simp)
            | succ i => exact ⟨i, by simpa using hi⟩

/-- The engine-selection criterion in the (amended) spec's words: the
source contains a platform video-id marker followed by at least one
capturable id character, or is a bare 11-character identifier. -/
def resolvesHosted (url : String) : Prop :=
  (∃ i, ∃ m ∈ markers, m.isPrefixOf (url.data.drop i) = true ∧
    idRun ((url.data.drop i).drop m.length) ≠ []) ∨
  isBare11 url.data = true

/-- `extractYouTubeVideoId` succeeds exactly on the sources the
criterion `resolvesHosted` accepts. -/
theorem extractYouTubeVideoId_isSome_iff (url : String) :
    (extractYouTubeVideoId url).isSome = true ↔ resolvesHosted url := by
  rw [extractYouTubeVideoId]
  cases hf : findMarkerMatch url.data with
  | some r =>
      simp only [Option.isSome_some, true_iff]
      have hs : (findMarkerMatch url.data).isSome = true := by rw [hf]; rfl
      obtain ⟨i, hi⟩ := (findMarkerMatch_isSome_iff url.data).mp hs
      obtain ⟨m, hm, hp, hr⟩ := (matchAt_isSome_iff _).mp hi
      exact Or.inl ⟨i, m, hm, hp, hr⟩
  | none =>
      by_cases hb : isBare11 url.data = true
      · simp only [hb, if_true, Option.isSome_some, true_iff]
        exact Or.inr hb
      · rw [if_neg hb]
        simp only [Option.isSome_none, Bool.false_eq_true, false_iff]
        rintro (⟨i, m, hm, hp, hr⟩ | hb')
        · have hi : (matchAt (url.data.drop i)).isSome = true :=
            (matchAt_isSome_iff _).mpr ⟨m, hm, hp, hr⟩
          have hs : (findMarkerMatch url.data).isSome = true :=
            (findMarkerMatch_isSome_iff url.data).mpr ⟨i, hi⟩
          rw [hf] at hs
          exact absurd hs (by simp)
        · exact hb hb'

/-- Claim C2, counterexample: the spec's example source
`"https://host/watch?v=abcdefghijk"` contains none of the platform
markers (`youtube.com/watch?v=`, `youtu.be/`, `youtube.com/embed/`) and
is not a bare 11-character id, so `extractYouTubeVideoId` rejects it and
loading it selects the native engine — not the hosted widget the claim
promises (even starting from a hosted-widget state). -/
theorem c2_counterexample :
    extractYouTubeVideoId "https://host/watch?v=abcdefghijk" = none ∧
    (handleLoadVideo ⟨"", "https://host/watch?v=abcdefghijk", 0, true, false,
        [], VideoType.youtube, "zzz", ""⟩).videoType = VideoType.direct := by
  exact ⟨rfl, rfl⟩

/-- Claim C2 as amended: loading
`"https://www.youtube.com/watch?v=abcdefghijk"` (an actual platform
marker in the URL) selects the hosted-widget engine with extracted id
`"abcdefghijk"`, loading `"https://cdn.example.com/clip.mp4"` selects
the native engine, and in general a non-blank source selects the
hosted-widget engine exactly when it contains a platform video-id
marker followed by at least one id character or is a bare 11-character
identifier over `[A-Za-z0-9_-]`. -/
theorem c2_engine_selection :
    extractYouTubeVideoId "https://www.youtube.com/watch?v=abcdefghijk" =
      some "abcdefghijk" ∧
    (handleLoadVideo ⟨"", "https://www.youtube.com/watch?v=abcdefghijk", 0, true,
        false, [], VideoType.direct, "", ""⟩).videoType = VideoType.youtube ∧
    (handleLoadVideo ⟨"", "https://www.youtube.com/watch?v=abcdefghijk", 0, true,
        false, [], VideoType.direct, "", ""⟩).youtubeVideoId = "abcdefghijk" ∧
    (handleLoadVideo ⟨"", "https://cdn.example.com/clip.mp4", 0, true,
        false, [], VideoType.youtube, "zzz", ""⟩).videoType = VideoType.direct ∧
    ∀ s : AppState, jsTrim s.inputUrl ≠ "" →
      ((handleLoadVideo s).videoType = VideoType.youtube ↔
        resolvesHosted s.inputUrl) := by
  refine ⟨rfl, rfl, rfl, rfl, fun s h => ?_⟩
  rw [handleLoadVideo, if_pos h]
  cases he : extractYouTubeVideoId s.inputUrl with
  | some yid =>
      simp only [true_iff]
      have : (extractYouTubeVideoId s.inputUrl).isSome = true := by
        rw [he]; rfl
      exact (extractYouTubeVideoId_isSome_iff s.inputUrl).mp this
  | none =>
      constructor
      · intro hv
        exact absurd hv (by simp)
      · intro hr
        have : (extractYouTubeVideoId s.inputUrl).isSome = true :=
          (extractYouTubeVideoId_isSome_iff s.inputUrl).mpr hr
        rw [he] at this
        exact absurd this (by simp)

end OVA
